import Mathlib

/-!
Verification of the matching subsystem of `src/misc/matching.c`.

The embedding models `igraph` graphs as a vertex count `n` together with a
list of edges, each edge an ordered pair of vertex ids.  Matching vectors,
type vectors and label arrays are Lean lists; the C sentinel `-1` is kept.
`igraph_integer_t` is modelled as `Int`.

`igraph_real_t` (weights, labels, slacks, `eps`) is modelled as `Int`: the
matching code applies only addition, subtraction, maximum, absolute value and
order comparisons to these quantities, so on integer inputs the IEEE double
arithmetic of the source computes exactly these integer values, and every
concrete instance considered below has integer weights.

Vector reads out of range are undefined behaviour in the source; the helpers
below return a default (`0`, `false`, `[]`) there.  Every use in a reachable
position is in range, as the source guarantees.

Fallible functions return `Except MErr`; `MErr.einval` stands for the
`IGRAPH_EINVAL` error raised via `IGRAPH_ERROR`.  Loops whose bounds are not
structural are given explicit fuel; the fuel supplied at each call site is
ample for the terminating executions of the source considered here, and the
value returned on fuel exhaustion is the state reached so far.
-/

/-- Error codes surfaced by the modelled functions (`IGRAPH_EINVAL`). -/
inductive MErr
  | einval
deriving DecidableEq

instance {α : Type} [DecidableEq α] : DecidableEq (Except MErr α) := fun a b =>
  match a, b with
  | .ok x, .ok y =>
    if h : x = y then .isTrue (by rw [h]) else .isFalse (fun hc => h (by injection hc))
  | .error x, .error y =>
    if h : x = y then .isTrue (by rw [h]) else .isFalse (fun hc => h (by injection hc))
  | .ok _, .error _ => .isFalse (fun hc => by injection hc)
  | .error _, .ok _ => .isFalse (fun hc => by injection hc)

/-- A graph: vertex ids are `0 .. n-1`, edges are ordered pairs of vertex ids
(the pair order is the `from`/`to` order igraph stores; matching treats the
graph as undirected). -/
structure Graph where
  n : Nat
  edges : List (Int × Int)
deriving DecidableEq

/-- Read an `igraph_vector_int_t` at an `igraph_integer_t` index. -/
def getI (xs : List Int) (i : Int) : Int :=
  if 0 ≤ i then xs.getD i.toNat 0 else 0

/-- Write an `igraph_vector_int_t` at an `igraph_integer_t` index. -/
def setI (xs : List Int) (i : Int) (v : Int) : List Int :=
  if 0 ≤ i then xs.set i.toNat v else xs

/-- Read an `igraph_vector_bool_t` at an `igraph_integer_t` index. -/
def getB (xs : List Bool) (i : Int) : Bool :=
  if 0 ≤ i then xs.getD i.toNat false else false

/-- Read a list-of-lists (an `igraph_adjlist_t`) at a vertex index. -/
def getL (xs : List (List Int)) (i : Int) : List Int :=
  if 0 ≤ i then xs.getD i.toNat [] else []

/-- Write a list-of-lists at a vertex index. -/
def setL (xs : List (List Int)) (i : Int) (v : List Int) : List (List Int) :=
  if 0 ≤ i then xs.set i.toNat v else xs

/-- `igraph_are_connected(graph, u, v)`: is there a stored edge `(u, v)`?
For a directed graph this is orientation sensitive, which is why the source
checks both orientations where it matters. -/
def are_connected (g : Graph) (u v : Int) : Bool :=
  g.edges.any (fun e => e.1 = u && e.2 = v)

/-- `igraph_neighbors(graph, v, IGRAPH_ALL)`: all opposite endpoints of edges
incident to `v`, a self-loop contributing `v` twice, sorted by vertex id (the
order igraph returns). -/
def neighbors (g : Graph) (v : Int) : List Int :=
  List.insertionSort (· ≤ ·)
    (g.edges.foldr (fun e acc =>
      (if e.1 = v then [e.2] else []) ++ ((if e.2 = v then [e.1] else []) ++ acc)) [])

/-- Per-vertex body of the first validation loop of `igraph_is_matching`
(matching.c lines 100-126): range of the entry, mutuality, and existence of a
connecting edge in either direction. -/
def entryCheck (g : Graph) (m : List Int) (i : Nat) : Bool :=
  let j := getI m (i : Int)
  if j < -1 ∨ (g.n : Int) ≤ j then false
  else if j = -1 then true
  else if getI m j = (i : Int) then
    (are_connected g (i : Int) j || are_connected g j (i : Int))
  else false

/-- Per-vertex body of the type loop of `igraph_is_matching` (lines 130-138):
matched vertices must be of different types. -/
def typeCheck (tv : List Bool) (m : List Int) (i : Nat) : Bool :=
  let j := getI m (i : Int)
  if j = -1 then true
  else if getB tv (i : Int) = getB tv j then false
  else true

/-- `igraph_is_matching` (matching.c lines 89-143).  The early returns of the
source are folded into `List.all` and `&&`; the boolean result is the same. -/
def is_matching (g : Graph) (types : Option (List Bool)) (matching : List Int) :
    Bool :=
  if matching.length = g.n then
    ((List.range g.n).all (fun i => entryCheck g matching i)) &&
      (match types with
       | none => true
       | some tv => (List.range g.n).all (fun i => typeCheck tv matching i))
  else false

/-- Per-vertex body of the maximality scan of `igraph_is_maximal_matching`
(lines 187-204): an unmatched vertex must not have an unmatched neighbor of
the opposite type (any unmatched neighbor when `types` is absent). -/
def maximalCheck (g : Graph) (types : Option (List Bool)) (m : List Int)
    (i : Nat) : Bool :=
  if getI m (i : Int) = -1 then
    (neighbors g (i : Int)).all (fun u =>
      if getI m u = -1 then
        match types with
        | none => false
        | some tv => if getB tv (i : Int) = getB tv u then true else false
      else true)
  else true

/-- `igraph_is_maximal_matching` (matching.c lines 171-211). -/
def is_maximal_matching (g : Graph) (types : Option (List Bool))
    (matching : List Int) : Bool :=
  if is_matching g types matching then
    (List.range g.n).all (fun i => maximalCheck g types matching i)
  else false

/-- Inner neighbor scan of the greedy initialization of
`igraph_i_maximum_bipartite_matching_unweighted` (lines 377-389): raise
`IGRAPH_EINVAL` on a same-type neighbor, match with the first unmatched
neighbor and stop, and report the final value of the loop counter `j`
(the source reuses `j` both as this loop index and as the type counter of
step 3, so its exit value matters). -/
def greedyInner (types : List Bool) (i : Int) :
    List Int → Int → List Int → Int → Except MErr (List Int × Int × Int)
  | [], j, mtch, num => .ok (mtch, num, j)
  | k :: rest, j, mtch, num =>
    if getB types k = getB types i then .error .einval
    else if getI mtch k = -1 then .ok (setI (setI mtch k i) i k, num + 1, j)
    else greedyInner types i rest (j + 1) mtch num

/-- Greedy initialization loop over all vertices (lines 366-390), carrying the
matching, the matched-pair count and the counter `j` that the source intends
as the number of `true`-typed vertices but that the inner loop clobbers. -/
def greedyLoop (g : Graph) (types : List Bool) :
    List Nat → List Int → Int → Int → Except MErr (List Int × Int × Int)
  | [], mtch, num, j => .ok (mtch, num, j)
  | i :: rest, mtch, num, j =>
    let j1 := if getB types (i : Int) then j + 1 else j
    if getI mtch (i : Int) = -1 then
      match greedyInner types (i : Int) (neighbors g (i : Int)) 0 mtch num with
      | .error e => .error e
      | .ok (m2, n2, jF) => greedyLoop g types rest m2 n2 jF
    else greedyLoop g types rest mtch num j1

/-- Neighbor scan of one BFS step of the global relabeling (lines 503-517),
threading the label vector and the queue. -/
def relabelScan (mtch : List Int) (n : Int) (v : Int) :
    List Int → List Int × List Int → List Int × List Int
  | [], st => st
  | w :: rest, (labels, q) =>
    if getI labels w = n then
      let labels1 := setI labels w (getI labels v + 1)
      let mt := getI mtch w
      if mt ≠ -1 ∧ getI labels1 mt = n then
        relabelScan mtch n v rest
          (setI labels1 mt (getI labels1 w + 1), q ++ [mt])
      else relabelScan mtch n v rest (labels1, q)
    else relabelScan mtch n v rest (labels, q)

/-- BFS of the global relabeling (lines 499-518); each vertex enters the
queue at most once, so fuel `g.n + 1` never runs out. -/
def relabelBFS (g : Graph) (mtch : List Int) (n : Int) :
    Nat → List Int → List Int → List Int
  | 0, labels, _ => labels
  | _ + 1, labels, [] => labels
  | fuel + 1, labels, v :: rest =>
    let st := relabelScan mtch n v (neighbors g v) (labels, rest)
    relabelBFS g mtch n fuel st.1 st.2

/-- `igraph_i_maximum_bipartite_matching_unweighted_relabel` (lines 471-525):
labels are reset to `n`, unmatched vertices of the larger set become BFS
roots with label `0`, and labels propagate along edges and matched pairs. -/
def relabelRun (g : Graph) (types : List Bool) (mtch : List Int)
    (smaller : Bool) : List Int :=
  let n : Int := (g.n : Int)
  let init := (List.range g.n).foldl
    (fun (st : List Int × List Int) i =>
      if getB types (i : Int) ≠ smaller ∧ getI mtch (i : Int) = -1 then
        (setI st.1 (i : Int) 0, st.2 ++ [(i : Int)])
      else st)
    (List.replicate g.n n, [])
  relabelBFS g mtch n (g.n + 1) init.1 init.2

/-- Minimum-label neighbor scan of the push-relabel main loop (lines 424-430),
carrying `(u, label_u, label_changed)`; the source increments `label_changed`
on every improvement of the running minimum. -/
def minLabelScan (labels : List Int) :
    List Int → Int × Int × Int → Int × Int × Int
  | [], st => st
  | x :: rest, (u, lu, lc) =>
    if getI labels x < lu then minLabelScan labels rest (x, getI labels x, lc + 1)
    else minLabelScan labels rest (u, lu, lc)

/-- Main push-relabel loop (lines 405-451): pop `v`, globally relabel every
`n/2` label changes, find the minimum-label neighbor `u`, and if its label is
below `n` match `(u, v)`, stealing `u` from and reactivating its previous
partner. -/
def pushRelabelLoop (g : Graph) (types : List Bool) (smaller : Bool) :
    Nat → List Int → List Int → List Int → Int → Int → List Int × Int
  | 0, mtch, _, _, num, _ => (mtch, num)
  | _ + 1, mtch, _, [], num, _ => (mtch, num)
  | fuel + 1, mtch, labels, v :: rest, num, lc =>
    let n : Int := (g.n : Int)
    let st0 : List Int × Int :=
      if ((g.n / 2 : Nat) : Int) ≤ lc then (relabelRun g types mtch smaller, 0)
      else (labels, lc)
    let scan := minLabelScan st0.1 (neighbors g v) (-1, 2 * n, st0.2)
    let u := scan.1
    let label_u := scan.2.1
    let lc2 := scan.2.2
    if label_u < n then
      let labels2 := setI st0.1 v (getI st0.1 u + 1)
      let step : List Int × List Int × Int :=
        if getI mtch u ≠ -1 then
          let w := getI mtch u
          if w ≠ v then (setI (setI mtch u (-1)) w (-1), rest ++ [w], num - 1)
          else (mtch, rest, num)
        else (mtch, rest, num)
      let mtch2 := setI (setI step.1 u v) v u
      let labels3 := setI labels2 u (getI labels2 u + 2)
      pushRelabelLoop g types smaller fuel mtch2 labels3 step.2.1
        (step.2.2 + 1) (lc2 + 1)
    else pushRelabelLoop g types smaller fuel mtch st0.1 rest num lc2

/-- `igraph_i_maximum_bipartite_matching_unweighted` (lines 333-469): greedy
initialization (which also computes the clobbered counter `j`), choice of the
smaller side as `j ≤ n/2`, global relabeling, queueing of the unmatched
smaller-side vertices, and the push-relabel main loop. -/
def igraph_i_maximum_bipartite_matching_unweighted (g : Graph)
    (types : List Bool) : Except MErr (Int × List Int) :=
  match greedyLoop g types (List.range g.n) (List.replicate g.n (-1)) 0 0 with
  | .error e => .error e
  | .ok (mtch, num, j) =>
    let smaller : Bool := decide (j ≤ ((g.n / 2 : Nat) : Int))
    let labels := relabelRun g types mtch smaller
    let q := ((List.range g.n).filter (fun i =>
        decide (getI mtch (i : Int) = -1) && decide (getB types (i : Int) = smaller))).map
      (fun i => (i : Int))
    let fin := pushRelabelLoop g types smaller
      ((g.n + 2) * (g.n + 2) * (g.n + 2)) mtch labels q num 0
    .ok (fin.2, fin.1)

/-- The `from` endpoint of edge `e` (edge ids are positions in the edge list). -/
def edgeFrom (g : Graph) (e : Nat) : Int := (g.edges.getD e (0, 0)).1

/-- The `to` endpoint of edge `e`. -/
def edgeTo (g : Graph) (e : Nat) : Int := (g.edges.getD e (0, 0)).2

/-- `igraph_inclist_get` for an incidence list built with `IGRAPH_ALL` and
`IGRAPH_LOOPS_TWICE`: the ids of the edges incident to `v` in increasing id
order, a self-loop id appearing twice. -/
def incidentEdges (g : Graph) (v : Int) : List Nat :=
  (List.range g.edges.length).foldr (fun e acc =>
    (if edgeFrom g e = v ∨ edgeTo g e = v then [e] else []) ++
      ((if edgeFrom g e = v ∧ edgeTo g e = v then [e] else []) ++ acc)) []

/-- `IGRAPH_OTHER(graph, e, v)`. -/
def otherEnd (g : Graph) (e : Nat) (v : Int) : Int := edgeFrom g e + edgeTo g e - v

/-- Read a weight or slack vector at an edge id. -/
def getS (xs : List Int) (e : Nat) : Int := xs.getD e 0

/-- Incident-edge scan of the initial labeling of
`igraph_i_maximum_bipartite_matching_weighted` (lines 632-643): raise
`IGRAPH_EINVAL` on a same-type endpoint, otherwise accumulate the maximum
incident weight. -/
def wMaxIncident (g : Graph) (types : List Bool) (w : List Int) (i : Int) :
    List Nat → Int → Except MErr Int
  | [], mx => .ok mx
  | e :: rest, mx =>
    let u := otherEnd g e i
    if getB types u = getB types i then .error .einval
    else wMaxIncident g types w i rest (if mx < getS w e then getS w e else mx)

/-- Initial labeling loop (lines 624-647): larger-side vertices get label `0`,
smaller-side vertices the maximum incident weight.  Only edges incident to
smaller-side vertices are type-checked here. -/
def wInitLabels (g : Graph) (types : List Bool) (w : List Int)
    (smallerType : Bool) : List Nat → List Int → Except MErr (List Int)
  | [], labels => .ok labels
  | i :: rest, labels =>
    if getB types (i : Int) ≠ smallerType then
      wInitLabels g types w smallerType rest (setI labels (i : Int) 0)
    else
      match wMaxIncident g types w (i : Int) (incidentEdges g (i : Int)) 0 with
      | .error e => .error e
      | .ok mx => wInitLabels g types w smallerType rest (setI labels (i : Int) mx)

/-- Initial slack computation and collection of the endpoint pairs of tight
edges (lines 649-661): `slack(e) = label(from) + label(to) - weight(e)`, and
an edge is tight when its slack is at most `eps`. -/
def wInitSlack (g : Graph) (w labels : List Int) (eps : Int) :
    List Nat → List Int → List (Int × Int) → List Int × List (Int × Int)
  | [], slack, tp => (slack, tp)
  | e :: rest, slack, tp =>
    let s := getI labels (edgeFrom g e) + getI labels (edgeTo g e) - getS w e
    let slack1 := slack.set e s
    if s ≤ eps then wInitSlack g w labels eps rest slack1 (tp ++ [(edgeFrom g e, edgeTo g e)])
    else wInitSlack g w labels eps rest slack1 tp

/-- State of the augmenting BFS of the weighted matcher: parent map, the
reached smaller-side (`vec1`) and larger-side (`vec2`) vertices, the queue,
and the endpoint of an alternating path when one was reached. -/
structure WBfs where
  parent : List Int
  vec1 : List Int
  vec2 : List Int
  q : List Int
  endpoint : Int
deriving DecidableEq

/-- Real-edge scan of one BFS step (lines 722-751): follow tight incident
edges to unseen vertices; an unmatched one ends the scan (the `break` of the
source), a matched one enqueues its partner. -/
def wBfsReal (g : Graph) (eps : Int) (slack mtch : List Int) (v : Int) :
    List Nat → WBfs → WBfs
  | [], st => st
  | e :: rest, st =>
    if ¬ (getS slack e ≤ eps) then wBfsReal g eps slack mtch v rest st
    else
      let u := otherEnd g e v
      if 0 ≤ getI st.parent u then wBfsReal g eps slack mtch v rest st
      else
        let st1 := { st with parent := setI st.parent u v, vec2 := st.vec2 ++ [u] }
        let w := getI mtch u
        if w = -1 then { st1 with endpoint := u }
        else wBfsReal g eps slack mtch v rest
          { st1 with q := st1.q ++ [w], parent := setI st1.parent w u,
                     vec1 := st1.vec1 ++ [w] }

/-- Phantom-edge scan of one BFS step (lines 753-785): like `wBfsReal` but
over the tight-phantom adjacency of `v`, re-validating tightness against the
current labels. -/
def wBfsPhantom (g : Graph) (eps : Int) (labels mtch : List Int) (v : Int) :
    List Int → WBfs → WBfs
  | [], st => st
  | u :: rest, st =>
    if 0 ≤ getI st.parent u then wBfsPhantom g eps labels mtch v rest st
    else if eps < |getI labels v + getI labels u| then
      wBfsPhantom g eps labels mtch v rest st
    else
      let st1 := { st with parent := setI st.parent u v, vec2 := st.vec2 ++ [u] }
      let w := getI mtch u
      if w = -1 then { st1 with endpoint := u }
      else wBfsPhantom g eps labels mtch v rest
        { st1 with q := st1.q ++ [w], parent := setI st1.parent w u,
                   vec1 := st1.vec1 ++ [w] }

/-- The BFS of step 8 (lines 707-786).  As in the source, reaching an
unmatched vertex stops only the current neighbor scans; the queue is still
drained. -/
def wBfsLoop (g : Graph) (eps : Int) (slack labels mtch : List Int)
    (phantom : List (List Int)) : Nat → WBfs → WBfs
  | 0, st => st
  | fuel + 1, st =>
    match st.q with
    | [] => st
    | v :: rest =>
      let st1 := wBfsReal g eps slack mtch v (incidentEdges g v) { st with q := rest }
      let st2 := wBfsPhantom g eps labels mtch v (getL phantom v) st1
      wBfsLoop g eps slack labels mtch phantom fuel st2

/-- Alternating-path flip (lines 795-815): walk the parent chain from the
endpoint, unmatching previous partners and matching the chain pairs.  The
source assigns `match[v] = u` twice in a row; the second assignment is
collapsed here. -/
def wFlip (parent : List Int) : Nat → List Int → Int → Int → List Int
  | 0, mtch, _, _ => mtch
  | fuel + 1, mtch, v, u =>
    if u = v then mtch
    else
      let w1 := getI mtch v
      let m1 := if w1 ≠ -1 then setI mtch w1 (-1) else mtch
      let m2 := setI m1 v u
      let w2 := getI m2 u
      let m3 := if w2 ≠ -1 then setI m2 w2 (-1) else m2
      let m4 := setI m3 u v
      wFlip parent fuel m4 (getI parent u) (getI parent (getI parent u))

/-- Minimum of `labels` over a vertex list, `none` standing for the
`IGRAPH_INFINITY` start value (lines 846-855). -/
def minLabelOpt (labels : List Int) : List Int → Option Int → Option Int
  | [], acc => acc
  | i :: rest, acc =>
    let li := getI labels i
    match acc with
    | none => minLabelOpt labels rest (some li)
    | some m =>
      if li < m then minLabelOpt labels rest (some li)
      else minLabelOpt labels rest acc

/-- Minimum of `labels` over the reached (`parent ≥ 0`) entries of `vec1`
(lines 856-868). -/
def minLabel2 (labels parent : List Int) : List Int → Option Int → Option Int
  | [], acc => acc
  | u :: rest, acc =>
    if getI parent u < 0 then minLabel2 labels parent rest acc
    else
      let lu := getI labels u
      match acc with
      | none => minLabel2 labels parent rest (some lu)
      | some m =>
        if lu < m then minLabel2 labels parent rest (some lu)
        else minLabel2 labels parent rest acc

/-- Addition on the `IGRAPH_INFINITY`-extended integers (line 869). -/
def optAdd : Option Int → Option Int → Option Int
  | some a, some b => some (a + b)
  | _, _ => none

/-- Scan of the real edges leaving reached smaller-side vertices towards
unreached vertices, lowering the running minimum slack (lines 873-904). -/
def minSlackEdges (g : Graph) (slack parent : List Int) :
    List Int → Option Int → Option Int
  | [], acc => acc
  | u :: rest, acc =>
    let acc1 := (incidentEdges g u).foldl (fun a e =>
      if 0 ≤ getI parent (otherEnd g e u) then a
      else
        match a with
        | none => some (getS slack e)
        | some m => if getS slack e < m then some (getS slack e) else a) acc
    minSlackEdges g slack parent rest acc1

/-- Decrease the labels of the vertices of `vec1` and the slacks of their
incident edges by `ms` (lines 908-923). -/
def wDecrease (g : Graph) (ms : Int) :
    List Int → List Int × List Int → List Int × List Int
  | [], st => st
  | u :: rest, (labels, slack) =>
    let labels1 := setI labels u (getI labels u - ms)
    let slack1 := (incidentEdges g u).foldl (fun s e => s.set e (getS s e - ms)) slack
    wDecrease g ms rest (labels1, slack1)

/-- Increase the labels of the vertices of `vec2` and the slacks of their
incident edges by `ms` (lines 925-940). -/
def wIncrease (g : Graph) (ms : Int) :
    List Int → List Int × List Int → List Int × List Int
  | [], st => st
  | u :: rest, (labels, slack) =>
    let labels1 := setI labels u (getI labels u + ms)
    let slack1 := (incidentEdges g u).foldl (fun s e => s.set e (getS s e + ms)) slack
    wIncrease g ms rest (labels1, slack1)

/-- Recomputation of the tight-phantom-edge adjacency (lines 949-964): every
smaller/larger pair whose label sum is at most `eps` is inserted, sorted, if
not already present.  The adjacency only ever grows. -/
def phantomUpdate (eps : Int) (labels : List Int) (smaller larger : List Int)
    (phantom : List (List Int)) : List (List Int) :=
  smaller.foldl (fun ph u =>
    larger.foldl (fun ph2 v =>
      if getI labels u + getI labels v ≤ eps then
        let lst := getL ph2 u
        if v ∈ lst then ph2 else setL ph2 u (List.orderedInsert (· ≤ ·) v lst)
      else ph2) ph) phantom

/-- One iteration of the Hungarian main loop plus its guard
(lines 673-972), carried to a fixpoint by fuel.  The state is
`(match, labels, slack, phantom, msize)`. -/
def hungarianLoop (g : Graph) (eps : Int) (smaller larger : List Int)
    (ssize : Int) :
    Nat → List Int → List Int → List Int → List (List Int) → Int →
      List Int × List Int × List (List Int) × Int
  | 0, mtch, _, slack, phantom, msize => (mtch, slack, phantom, msize)
  | fuel + 1, mtch, labels, slack, phantom, msize =>
    if msize < ssize then
      let roots := smaller.foldl (fun (st : WBfs) i =>
          if getI mtch i = -1 then
            { st with q := st.q ++ [i], parent := setI st.parent i i,
                      vec1 := st.vec1 ++ [i] }
          else st)
        ⟨List.replicate g.n (-1), [], [], [], -1⟩
      let bfs := wBfsLoop g eps slack labels mtch phantom
        ((g.n + 2) * (g.n + 2)) roots
      if bfs.endpoint ≠ -1 then
        let mtch1 := wFlip bfs.parent (g.n + 2) mtch bfs.endpoint
          (getI bfs.parent bfs.endpoint)
        hungarianLoop g eps smaller larger ssize fuel mtch1 labels slack
          phantom (msize + 1)
      else
        let msA := optAdd (minLabelOpt labels larger none)
          (minLabel2 labels bfs.parent bfs.vec1 none)
        let msB := minSlackEdges g slack bfs.parent bfs.vec1 msA
        -- `msB = none` would be the IEEE infinity of the source; it cannot
        -- occur when the loop runs, since `vec1` and `larger` are nonempty.
        let msv := msB.getD 0
        let pos : Bool := match msB with | none => true | some m => decide (0 < m)
        let upd :=
          if pos then wIncrease g msv bfs.vec2 (wDecrease g msv bfs.vec1 (labels, slack))
          else (labels, slack)
      let phantom1 := phantomUpdate eps upd.1 smaller larger phantom
      hungarianLoop g eps smaller larger ssize fuel mtch upd.1 upd.2 phantom1 msize
    else (mtch, slack, phantom, msize)

/-- Removal of phantom pairs from the final matching (lines 975-985). -/
def phantomCleanup (phantom : List (List Int)) :
    List Int → List Int → Int → List Int × Int
  | [], mtch, msize => (mtch, msize)
  | u :: rest, mtch, msize =>
    let v := getI mtch u
    if v ≠ -1 ∧ v ∈ getL phantom u then
      phantomCleanup phantom rest (setI (setI mtch u (-1)) v (-1)) (msize - 1)
    else phantomCleanup phantom rest mtch msize

/-- Final matching weight (lines 994-1004): the sum of the weights of the
edges that are tight at termination and whose stored endpoints are matched to
each other. -/
def weightSum (g : Graph) (w : List Int) (eps : Int) (slack mtch : List Int) :
    Int :=
  (List.range g.edges.length).foldl (fun acc e =>
    if getS slack e ≤ eps ∧ getI mtch (edgeFrom g e) = edgeTo g e then
      acc + getS w e
    else acc) 0

/-- `igraph_i_maximum_bipartite_matching_weighted` (lines 541-1022): clamp a
negative `eps` to zero, pick the smaller side, compute initial labels and
slacks, run the unweighted matcher on the tight subgraph (the source calls
the public entry point on a freshly created graph whose `types` already
passed the length check), run the Hungarian main loop, drop phantom pairs
and report size, matching and weight. -/
def igraph_i_maximum_bipartite_matching_weighted (g : Graph)
    (types : List Bool) (w : List Int) (eps0 : Int) :
    Except MErr (Int × List Int × Int) :=
  let eps := if eps0 < 0 then 0 else eps0
  let cnt0 := ((List.range g.n).filter (fun i => getB types (i : Int) = false)).length
  let smallerType : Bool := decide (g.n / 2 < cnt0)
  let smaller := ((List.range g.n).filter (fun i => getB types (i : Int) = smallerType)).map
    (fun i => (i : Int))
  let larger := ((List.range g.n).filter (fun i => getB types (i : Int) ≠ smallerType)).map
    (fun i => (i : Int))
  match wInitLabels g types w smallerType (List.range g.n) (List.replicate g.n 0) with
  | .error e => .error e
  | .ok labels =>
    let ist := wInitSlack g w labels eps (List.range g.edges.length)
      (List.replicate g.edges.length 0) []
    let sub : Graph := ⟨g.n, ist.2⟩
    match igraph_i_maximum_bipartite_matching_unweighted sub types with
    | .error e => .error e
    | .ok (msize, mtch) =>
      let fin := hungarianLoop g eps smaller larger (smaller.length : Int)
        ((g.n + 2) * (g.n + 2) * (g.edges.length + 2)) mtch labels ist.1
        (List.replicate g.n []) msize
      let cln := phantomCleanup fin.2.2.1 smaller fin.1 fin.2.2.2
      .ok (cln.2, cln.1, weightSum g w eps fin.2.1 cln.1)

/-- `igraph_maximum_bipartite_matching` (lines 288-313): length checks on the
`types` and `weights` vectors, then dispatch; for `NULL` weights the matching
weight is the matching size. -/
def igraph_maximum_bipartite_matching (g : Graph) (types : List Bool)
    (weights : Option (List Int)) (eps : Int) :
    Except MErr (Int × List Int × Int) :=
  if types.length < g.n then .error .einval
  else
    match weights with
    | none =>
      match igraph_i_maximum_bipartite_matching_unweighted g types with
      | .error e => .error e
      | .ok (sz, m) => .ok (sz, m, sz)
    | some w =>
      if w.length < g.edges.length then .error .einval
      else igraph_i_maximum_bipartite_matching_weighted g types w eps

/-- Truncating halving of a (nonnegative) level sum, as the integer division
of the source computes it on the reachable nonnegative values. -/
def halfNat (x : Int) : Int := ((x.toNat / 2 : Nat) : Int)

/-- Append `xs` to the list stored at index `idx` of a list-of-lists (the
`igraph_vector_int_list_t` push-backs of the source). -/
def appendAt (ls : List (List Int)) (idx : Int) (xs : List Int) :
    List (List Int) :=
  setL ls idx (getL ls idx ++ xs)

/-- State of `igraph_i_maximum_matching_unweighted` (lines 1093-1376).  The
four write-only boolean arrays of the source (`visited_nodes`,
`visited_edges`, `used_edges`, `erased_nodes`) are omitted: they are filled
with zeroes each phase and never read on any reachable path, `visited_nodes`
moreover being used before initialization. -/
structure GState where
  even_level : List Int
  odd_level : List Int
  blossom : List Int
  predecessors : List (List Int)
  unused_ancestors : List (List Int)
  unvisited_ancestors : List (List Int)
  anomalies : List (List Int)
  bridges : List (List Int)
  mtch : List Int
  levelQ : List Int
  nextQ : List Int
  phase_i : Int
  hasVertices : Bool
  augmented : Bool
deriving DecidableEq

/-- Neighbor scan of the even search step (lines 1268-1300): a neighbor with
finite even level yields a bridge; otherwise its odd level, predecessor lists
and anomalies are updated. -/
def gEvenNeighbor (i v : Int) : List Int → GState → GState
  | [], st => st
  | u :: rest, st =>
    if getI st.even_level u ≠ -1 then
      let temp := halfNat (getI st.even_level u + getI st.even_level v)
      gEvenNeighbor i v rest { st with bridges := appendAt st.bridges temp [u, v] }
    else
      let st1 :=
        if getI st.odd_level u = -1 then
          { st with odd_level := setI st.odd_level u (i + 1),
                    nextQ := st.nextQ ++ [u] }
        else st
      let st2 :=
        if getI st1.odd_level u = i + 1 then
          { st1 with predecessors := appendAt st1.predecessors u [v],
                     unused_ancestors := appendAt st1.unused_ancestors u [v],
                     unvisited_ancestors := appendAt st1.unvisited_ancestors u [v] }
        else st1
      let st3 :=
        if getI st2.odd_level u < i then
          { st2 with anomalies := appendAt st2.anomalies u [v] }
        else st2
      gEvenNeighbor i v rest st3

/-- Even search step (lines 1261-1301): drain the level queue, scanning the
neighbors of each vertex. -/
def gEvenLoop (g : Graph) (i : Int) : Nat → GState → GState
  | 0, st => st
  | fuel + 1, st =>
    match st.levelQ with
    | [] => st
    | v :: rest =>
      gEvenLoop g i fuel (gEvenNeighbor i v (neighbors g v) { st with levelQ := rest })

/-- Odd search step (lines 1303-1331): each popped vertex is paired with its
matched neighbor `u = match(v)`.  The source notes that `u` may be `-1`
(its own `BUG` comment); this is unreachable because the matching is never
updated, so every phase starts with all vertices exposed and only the even
step at level 0 ever runs. -/
def gOddLoop (g : Graph) (i : Int) : Nat → GState → GState
  | 0, st => st
  | fuel + 1, st =>
    match st.levelQ with
    | [] => st
    | v :: rest =>
      let u := getI st.mtch v
      let st0 := { st with levelQ := rest }
      let st1 :=
        if getI st0.odd_level u = i then
          let temp := halfNat (getI st0.odd_level u + getI st0.odd_level v)
          { st0 with bridges := appendAt st0.bridges temp [u, v] }
        else st0
      let st2 :=
        if getI st1.odd_level u = -1 then
          { st1 with even_level := setI st1.even_level u (i + 1),
                     nextQ := st1.nextQ ++ [u],
                     predecessors := appendAt st1.predecessors u [v],
                     unused_ancestors := appendAt st1.unused_ancestors u [v],
                     unvisited_ancestors := appendAt st1.unvisited_ancestors u [v] }
        else st1
      gOddLoop g i fuel st2

/-- One phase: reset the per-phase structures and queue the exposed vertices
with even level 0 (lines 1206-1253). -/
def gPhaseStart (g : Graph) (st : GState) : GState :=
  let st1 := { st with
    even_level := List.replicate g.n (-1),
    odd_level := List.replicate g.n (-1),
    blossom := List.replicate g.n (-1),
    predecessors := List.replicate g.n [],
    unused_ancestors := List.replicate g.n [],
    unvisited_ancestors := List.replicate g.n [],
    anomalies := List.replicate g.n [],
    bridges := (List.range g.n).foldl (fun b j => b.set j []) st.bridges,
    phase_i := -1,
    augmented := false }
  (List.range g.n).foldl (fun s j =>
    if getI s.mtch (j : Int) = -1 then
      { s with even_level := setI s.even_level (j : Int) 0,
               levelQ := s.levelQ ++ [(j : Int)] }
    else s) st1

/-- The level loop of one phase (lines 1257-1350): advance `i`, run the even
or odd step, process `bridges(i)` (the loop body of the source contains only
a TODO comment and never invokes `bloss_aug`, so nothing happens), swap the
level queues and stop when no vertex has the next level. -/
def gPhaseSteps (g : Graph) : Nat → GState → GState
  | 0, st => st
  | fuel + 1, st =>
    if st.augmented ∨ ¬ st.hasVertices then st
    else
      let i := st.phase_i + 1
      let st1 := { st with phase_i := i }
      let st2 := if i % 2 = 0 then gEvenLoop g i (g.n + 1) st1
                 else gOddLoop g i (g.n + 1) st1
      let st3 := { st2 with levelQ := st2.nextQ, nextQ := st2.levelQ }
      let st4 := if st3.levelQ.length = 0 then { st3 with hasVertices := false }
                 else st3
      gPhaseSteps g fuel st4

/-- The phase loop of `igraph_i_maximum_matching_unweighted`
(lines 1194-1353). -/
def gSearch (g : Graph) : Nat → GState → GState
  | 0, st => st
  | fuel + 1, st =>
    if st.hasVertices then gSearch g fuel (gPhaseSteps g (2 * g.n + 4) (gPhaseStart g st))
    else st

/-- `igraph_i_maximum_matching_unweighted` (lines 1093-1376).  The search
loop only fills the phase-local structures: `bloss_aug` is never called, the
internal `match` vector keeps the all `-1` filling of line 1192, the
`matching` argument is never referenced in the body, and line 1356 stores `0`
as the matching size unconditionally. -/
def igraph_i_maximum_matching_unweighted (g : Graph) (matching : List Int) :
    Int × List Int :=
  let init : GState :=
    { even_level := List.replicate g.n 0, odd_level := List.replicate g.n 0,
      blossom := List.replicate g.n 0,
      predecessors := List.replicate g.n [],
      unused_ancestors := List.replicate g.n [],
      unvisited_ancestors := List.replicate g.n [],
      anomalies := List.replicate g.n [],
      bridges := List.replicate (2 * g.n) [],
      mtch := List.replicate g.n (-1),
      levelQ := [], nextQ := [], phase_i := -1,
      hasVertices := decide (g.n ≠ 0), augmented := false }
  let _final := gSearch g (g.n + 2) init
  (0, matching)

/-- `igraph_maximum_matching` (lines 1079-1090): the `weights` argument is
accepted but never read (the documentation of the function says it is
"Currently ignored"), `matching_weight` is never written, and the unweighted
search runs unconditionally and always succeeds. -/
def igraph_maximum_matching (g : Graph) (matching : List Int)
    (weights : Option (List Int)) : Except MErr (Int × List Int) :=
  .ok (igraph_i_maximum_matching_unweighted g matching)

theorem bool_eq_false_iff_not_true (b : Bool) : b = false ↔ ¬ b = true := by
  cases b <;> simp

theorem entryCheck_eq_true_iff (g : Graph) (m : List Int) (i : Nat) :
    entryCheck g m i = true ↔
      (-1 ≤ getI m (i : Int) ∧ getI m (i : Int) < (g.n : Int) ∧
        (getI m (i : Int) = -1 ∨
          (getI m (getI m (i : Int)) = (i : Int) ∧
            (are_connected g (i : Int) (getI m (i : Int)) = true ∨
             are_connected g (getI m (i : Int)) (i : Int) = true)))) := by
  simp only [entryCheck]
  split_ifs with h1 h2 h3
  · simp only [false_iff]
    intro hh
    rcases h1 with h1 | h1 <;> omega
  · simp only [true_iff]
    refine ⟨by omega, by omega, Or.inl h2⟩
  · rw [Bool.or_eq_true]
    constructor
    · intro hc
      exact ⟨by omega, by omega, Or.inr ⟨h3, hc⟩⟩
    · rintro ⟨-, -, h | ⟨-, hc⟩⟩
      · exact absurd h h2
      · exact hc
  · simp only [false_iff]
    rintro ⟨-, -, h | ⟨hm, -⟩⟩
    · exact h2 h
    · exact h3 hm

theorem typeCheck_eq_true_iff (tv : List Bool) (m : List Int) (i : Nat) :
    typeCheck tv m i = true ↔
      (getI m (i : Int) = -1 ∨ ¬ getB tv (i : Int) = getB tv (getI m (i : Int))) := by
  simp only [typeCheck]
  split_ifs with h1 h2 <;> simp_all

theorem is_matching_true_iff (g : Graph) (types : Option (List Bool))
    (m : List Int) :
    is_matching g types m = true ↔
      (m.length = g.n ∧ (∀ i, i < g.n → entryCheck g m i = true) ∧
        ∀ tv, types = some tv → ∀ i, i < g.n → typeCheck tv m i = true) := by
  unfold is_matching
  split_ifs with hlen
  · cases types with
    | none => simp [List.all_eq_true, List.mem_range, hlen]
    | some tv => simp [List.all_eq_true, List.mem_range, hlen]
  · simp only [false_iff]
    rintro ⟨h, -, -⟩
    exact hlen h

/-- C5: for every graph, optional types vector and candidate matching vector,
`igraph_is_matching` returns false (as a normal result, not an error) exactly
when one of these holds: the vector length differs from the vertex count;
some entry is outside `[-1, n)`; some pairing is asymmetric
(`matching[matching[i]] ≠ i`); some claimed pair has no edge in the graph in
either direction; or, when types are supplied, some matched pair has equal
types.  Otherwise it returns true. -/
theorem C5_is_matching_false_characterization :
    ∀ (g : Graph) (types : Option (List Bool)) (m : List Int),
      is_matching g types m = false ↔
        (m.length ≠ g.n ∨
         (∃ i, i < g.n ∧
            (getI m (i : Int) < -1 ∨ (g.n : Int) ≤ getI m (i : Int))) ∨
         (∃ i, i < g.n ∧ 0 ≤ getI m (i : Int) ∧ getI m (i : Int) < (g.n : Int) ∧
            getI m (getI m (i : Int)) ≠ (i : Int)) ∨
         (∃ i, i < g.n ∧ 0 ≤ getI m (i : Int) ∧ getI m (i : Int) < (g.n : Int) ∧
            are_connected g (i : Int) (getI m (i : Int)) = false ∧
            are_connected g (getI m (i : Int)) (i : Int) = false) ∨
         (∃ tv, types = some tv ∧ ∃ i, i < g.n ∧ getI m (i : Int) ≠ -1 ∧
            getB tv (i : Int) = getB tv (getI m (i : Int)))) := by
  intro g types m
  rw [bool_eq_false_iff_not_true, is_matching_true_iff]
  constructor
  · intro h
    by_cases hlen : m.length = g.n
    · by_cases hent : ∀ i, i < g.n → entryCheck g m i = true
      · have ht : ¬ ∀ tv, types = some tv → ∀ i, i < g.n →
            typeCheck tv m i = true := fun hty => h ⟨hlen, hent, hty⟩
        push_neg at ht
        obtain ⟨tv, htv, i, hi, htc⟩ := ht
        have hx : ¬ (getI m (i : Int) = -1 ∨
            ¬ getB tv (i : Int) = getB tv (getI m (i : Int))) :=
          fun hy => htc ((typeCheck_eq_true_iff tv m i).mpr hy)
        push_neg at hx
        exact Or.inr (Or.inr (Or.inr (Or.inr
          ⟨tv, htv, i, hi, hx.1, hx.2⟩)))
      · push_neg at hent
        obtain ⟨i, hi, hec0⟩ := hent
        have hec : ¬ (-1 ≤ getI m (i : Int) ∧ getI m (i : Int) < (g.n : Int) ∧
            (getI m (i : Int) = -1 ∨
              (getI m (getI m (i : Int)) = (i : Int) ∧
                (are_connected g (i : Int) (getI m (i : Int)) = true ∨
                 are_connected g (getI m (i : Int)) (i : Int) = true)))) :=
          fun hy => hec0 ((entryCheck_eq_true_iff g m i).mpr hy)
        by_cases hr : -1 ≤ getI m (i : Int) ∧ getI m (i : Int) < (g.n : Int)
        · by_cases hj : getI m (i : Int) = -1
          · exact absurd ⟨hr.1, hr.2, Or.inl hj⟩ hec
          · by_cases hmut : getI m (getI m (i : Int)) = (i : Int)
            · have hcc : ¬ (are_connected g (i : Int) (getI m (i : Int)) = true ∨
                  are_connected g (getI m (i : Int)) (i : Int) = true) :=
                fun hc => hec ⟨hr.1, hr.2, Or.inr ⟨hmut, hc⟩⟩
              push_neg at hcc
              refine Or.inr (Or.inr (Or.inr (Or.inl
                ⟨i, hi, by omega, hr.2, ?_, ?_⟩)))
              · exact (bool_eq_false_iff_not_true _).mpr hcc.1
              · exact (bool_eq_false_iff_not_true _).mpr hcc.2
            · exact Or.inr (Or.inr (Or.inl ⟨i, hi, by omega, hr.2, hmut⟩))
        · refine Or.inr (Or.inl ⟨i, hi, by omega⟩)
    · exact Or.inl hlen
  · rintro (h | h | h | h | h)
    · rintro ⟨hlen, -, -⟩
      exact h hlen
    · rintro ⟨-, hent, -⟩
      obtain ⟨i, hi, hr⟩ := h
      have := (entryCheck_eq_true_iff g m i).mp (hent i hi)
      rcases hr with hr | hr <;> omega
    · rintro ⟨-, hent, -⟩
      obtain ⟨i, hi, h0, hn, hasym⟩ := h
      have hE := (entryCheck_eq_true_iff g m i).mp (hent i hi)
      rcases hE.2.2 with he | ⟨hm, -⟩
      · omega
      · exact hasym hm
    · rintro ⟨-, hent, -⟩
      obtain ⟨i, hi, h0, hn, hc1, hc2⟩ := h
      have hE := (entryCheck_eq_true_iff g m i).mp (hent i hi)
      rcases hE.2.2 with he | ⟨-, hc⟩
      · omega
      · rcases hc with hc | hc <;> simp_all
    · rintro ⟨-, -, hty⟩
      obtain ⟨tv, htv, i, hi, hne, heq⟩ := h
      have hT := (typeCheck_eq_true_iff tv m i).mp (hty tv htv i hi)
      rcases hT with hT | hT
      · exact hne hT
      · exact hT heq

theorem maximalCheck_eq_true_iff (g : Graph) (types : Option (List Bool))
    (m : List Int) (i : Nat) :
    maximalCheck g types m i = true ↔
      (getI m (i : Int) = -1 → ∀ u ∈ neighbors g (i : Int), getI m u = -1 →
        ∃ tv, types = some tv ∧ getB tv (i : Int) = getB tv u) := by
  simp only [maximalCheck]
  split_ifs with h1
  · rw [List.all_eq_true]
    constructor
    · intro ha _ u hu hum
      have hx := ha u hu
      cases types with
      | none => simp [hum] at hx
      | some tv =>
        by_cases hteq : getB tv (i : Int) = getB tv u
        · exact ⟨tv, rfl, hteq⟩
        · simp [hum, hteq] at hx
    · intro hb u hu
      by_cases hum : getI m u = -1
      · obtain ⟨tv, htv, hteq⟩ := hb h1 u hu hum
        cases htv
        simp [hum, hteq]
      · simp [hum]
  · simp [h1]

theorem is_maximal_matching_true_iff (g : Graph) (types : Option (List Bool))
    (m : List Int) :
    is_maximal_matching g types m = true ↔
      (is_matching g types m = true ∧
        ∀ i, i < g.n → maximalCheck g types m i = true) := by
  unfold is_maximal_matching
  split_ifs with hv
  · simp [List.all_eq_true, List.mem_range, hv]
  · simp [hv]

/-- C6: for every graph, optional types vector and candidate matching,
`igraph_is_maximal_matching` returns true iff `igraph_is_matching` holds and
no two unmatched vertices (restricted to opposite-type pairs when types are
given) are adjacent; in particular, on the star graph with center 0 and
leaves 1, 2, 3, the matching pairing the center with leaf 1 and leaving
leaves 2 and 3 unmatched is maximal, because leaves are pairwise
non-adjacent. -/
theorem C6_is_maximal_matching_characterization :
    (∀ (g : Graph) (types : Option (List Bool)) (m : List Int),
      is_maximal_matching g types m = true ↔
        (is_matching g types m = true ∧
          ¬ ∃ (i : Nat) (u : Int), i < g.n ∧ getI m (i : Int) = -1 ∧
            u ∈ neighbors g (i : Int) ∧ getI m u = -1 ∧
            (∀ tv, types = some tv → ¬ getB tv (i : Int) = getB tv u))) ∧
    is_maximal_matching ⟨4, [(0, 1), (0, 2), (0, 3)]⟩ none [1, 0, -1, -1] = true := by
  constructor
  · intro g types m
    rw [is_maximal_matching_true_iff]
    refine and_congr_right fun _ => ?_
    constructor
    · rintro hall ⟨i, u, hi, him, hu, hum, hop⟩
      obtain ⟨tv, htv, hsame⟩ :=
        (maximalCheck_eq_true_iff g types m i).mp (hall i hi) him u hu hum
      exact hop tv htv hsame
    · intro hnex i hi
      rw [maximalCheck_eq_true_iff]
      intro him u hu hum
      by_contra hno
      exact hnex ⟨i, u, hi, him, hu, hum,
        fun tv htv hsame => hno ⟨tv, htv, hsame⟩⟩
  · decide

/-- C7 counterexample: with no types vector, a matching that pairs vertex 0
with itself on a graph consisting of a single self-loop is accepted by
`igraph_is_matching` (the pair is mutual and backed by the loop edge),
refuting the claim that a self-pairing is always rejected. -/
theorem C7_counterexample_selfloop_accepted :
    is_matching ⟨1, [(0, 0)]⟩ none [0] = true := by decide

/-- C7 amended: when a types vector is supplied, `igraph_is_matching` rejects
every matching with a self-paired vertex (its type equals its own type), even
when the graph has a self-loop there; without a types vector a self-paired
vertex is accepted exactly when a self-loop backs it. -/
theorem C7_amended_selfpair_rejected_with_types (g : Graph) (tv : List Bool)
    (m : List Int) (v : Nat) (hv : v < g.n)
    (hself : getI m (v : Int) = (v : Int)) :
    is_matching g (some tv) m = false := by
  rw [bool_eq_false_iff_not_true, is_matching_true_iff]
  rintro ⟨-, -, hty⟩
  have hT := (typeCheck_eq_true_iff tv m v).mp (hty tv rfl v hv)
  rcases hT with hT | hT
  · omega
  · rw [hself] at hT
    exact hT rfl

theorem C7_amended_selfpair_rejected_with_types_witness :
    is_matching ⟨1, [(0, 0)]⟩ (some [false]) [0] = false :=
  C7_amended_selfpair_rejected_with_types ⟨1, [(0, 0)]⟩ [false] [0] 0
    (by decide) (by decide)

/-- C4 counterexample: the graph on vertices 0..3 with edges
(0,1), (2,3), (1,3) and types F,T,F,T has the edge (1,3) joining two
same-type vertices, yet both the unweighted and the weighted path of
`igraph_maximum_bipartite_matching` succeed and silently return a matching:
vertices 1 and 3 are both greedily matched through their other edges before
any scan reaches the offending edge. -/
theorem C4_counterexample_escaped_bad_edge :
    getB [false, true, false, true] 1 = getB [false, true, false, true] 3 ∧
    ((1 : Int), (3 : Int)) ∈ (⟨4, [(0, 1), (2, 3), (1, 3)]⟩ : Graph).edges ∧
    igraph_maximum_bipartite_matching ⟨4, [(0, 1), (2, 3), (1, 3)]⟩
      [false, true, false, true] none 0 = .ok (2, [1, 0, 3, 2], 2) ∧
    igraph_maximum_bipartite_matching ⟨4, [(0, 1), (2, 3), (1, 3)]⟩
      [false, true, false, true] (some [1, 1, 1]) 0 = .ok (2, [1, 0, 3, 2], 2) :=
  ⟨by decide, by decide, by decide, by decide⟩

/-- C4 amended: the invalid-bipartition error is signalled only when a scan
actually reaches a same-type edge — in the unweighted path while greedily
scanning a vertex that is still unmatched at its turn, in the weighted path
on edges incident to smaller-side vertices or through the nested unweighted
call on the tight subgraph.  On the triangle with types F,T,T both paths
reject the bipartition with `IGRAPH_EINVAL`. -/
theorem C4_amended_error_when_edge_scanned :
    igraph_maximum_bipartite_matching ⟨3, [(0, 1), (0, 2), (1, 2)]⟩
      [false, true, true] none 0 = .error .einval ∧
    igraph_maximum_bipartite_matching ⟨3, [(0, 1), (0, 2), (1, 2)]⟩
      [false, true, true] (some [1, 1, 1]) 0 = .error .einval :=
  ⟨by decide, by decide⟩

/-- C9 counterexample: on the multigraph with two parallel edges between 0
and 1, both of weight 3, the weighted matcher matches the single pair (0,1)
— a matching of total weight 3 — but reports matching weight 6, because the
final sum runs over every tight edge whose endpoints are matched to each
other and counts both parallel copies.  So the returned weight is not the
sum of the weights of the edges matched in the returned matching vector. -/
theorem C9_counterexample_parallel_tight_edges :
    igraph_maximum_bipartite_matching ⟨2, [(0, 1), (0, 1)]⟩ [false, true]
      (some [3, 3]) 0 = .ok (1, [1, 0], 6) ∧ (6 : Int) ≠ 3 :=
  ⟨by decide, by decide⟩

/-- C9 amended: the returned matching weight is the sum of the weights of the
tight edges whose stored endpoints are matched to each other in the returned
vector, which counts parallel tight copies of a matched pair multiply; on
simple graphs it is the matched-edge weight sum, and in particular for two
disjoint edges with weights 3 and 5 and eps = 0 both edges are matched and
the returned weight is 8. -/
theorem C9_amended_disjoint_edges_weight_8 :
    igraph_maximum_bipartite_matching ⟨4, [(0, 1), (2, 3)]⟩
      [false, true, false, true] (some [3, 5]) 0 = .ok (2, [1, 0, 3, 2], 8) := by
  decide

/-- C1 counterexample: `igraph_maximum_matching` called on the single-edge
graph with a non-NULL weights vector returns success (having ignored the
weights), not an unsupported-feature error. -/
theorem C1_counterexample_weighted_call_accepted :
    igraph_maximum_matching ⟨2, [(0, 1)]⟩ [-1, -1] (some [1]) =
      .ok (0, [-1, -1]) := by
  decide

/-- C1 amended: `igraph_maximum_matching` never rejects a non-NULL weights
vector; it silently ignores the weights and behaves exactly as the
unweighted call does (the general matcher runs unconditionally). -/
theorem C1_amended_weights_silently_ignored :
    ∀ (g : Graph) (matching : List Int) (w : List Int),
      igraph_maximum_matching g matching (some w) =
        igraph_maximum_matching g matching none :=
  fun _ _ _ => rfl

/-- C2: on the triangle graph (the 3-cycle on vertices 0,1,2, non-bipartite)
with NULL weights, `igraph_maximum_matching` succeeds but reports matching
size 0, not the maximum matching size 1 the claim and the function's own
documentation promise: the general matcher never augments (its blossom
routine is never invoked) and stores 0 unconditionally. -/
theorem C2_triangle_reports_size_zero :
    igraph_maximum_matching ⟨3, [(0, 1), (1, 2), (0, 2)]⟩ [-1, -1, -1] none =
      .ok (0, [-1, -1, -1]) ∧ (0 : Int) ≠ 1 :=
  ⟨by decide, by decide⟩

/-- C10: for every graph, every input matching vector and every optional
weights vector, `igraph_maximum_matching` succeeds, unconditionally reports
matching size 0, and returns the caller's matching vector bit-for-bit
unchanged. -/
theorem C10_size_zero_and_matching_untouched :
    ∀ (g : Graph) (matching : List Int) (weights : Option (List Int)),
      igraph_maximum_matching g matching weights = .ok (0, matching) :=
  fun _ _ _ => rfl

/-- C8 counterexample: on seven vertices with edges (2,6), (0,2), (0,4),
(0,3), (1,4), (2,4), (1,5) and types T,F,F,F,T,T,T (the edge (0,4) joins two
same-type vertices but escapes the bipartition check), the unweighted call
succeeds and returns the vector [3,5,6,0,0,1,2], which is not symmetric:
entry 4 holds 0 while entry 0 holds 3.  During the push-relabel loop vertex 0
is unmatched, queued, matched to 4 across the same-type edge while still in
the queue, and then re-matched to 3 when popped, leaving entry 4 dangling.
The returned vector fails `igraph_is_matching`. -/
theorem C8_counterexample_asymmetric_output :
    igraph_maximum_bipartite_matching
        ⟨7, [(2, 6), (0, 2), (0, 4), (0, 3), (1, 4), (2, 4), (1, 5)]⟩
        [true, false, false, false, true, true, true] none 0 =
      .ok (4, [3, 5, 6, 0, 0, 1, 2], 4) ∧
    getI [3, 5, 6, 0, 0, 1, 2] 4 = 0 ∧ getI [3, 5, 6, 0, 0, 1, 2] 0 = 3 ∧
    is_matching ⟨7, [(2, 6), (0, 2), (0, 4), (0, 3), (1, 4), (2, 4), (1, 5)]⟩
        (some [true, false, false, false, true, true, true])
        [3, 5, 6, 0, 0, 1, 2] = false :=
  ⟨by decide, by decide, by decide, by decide⟩

/-- C8 amended: the matching-vector invariant is not guaranteed for every
successful call — an invalid bipartition that escapes the input check can
make the returned vector asymmetric — but the returned vectors of the spec's
bipartite scenario instances satisfy it: the path 0-1-2-3, the complete
bipartite K(2,3), and the weighted two-disjoint-edges instance all return
vectors that pass `igraph_is_matching`. -/
theorem C8_amended_scenario_outputs_pass_is_matching :
    (igraph_maximum_bipartite_matching ⟨4, [(0, 1), (1, 2), (2, 3)]⟩
        [false, true, false, true] none 0 = .ok (2, [1, 0, 3, 2], 2) ∧
      is_matching ⟨4, [(0, 1), (1, 2), (2, 3)]⟩
        (some [false, true, false, true]) [1, 0, 3, 2] = true) ∧
    (igraph_maximum_bipartite_matching
        ⟨5, [(0, 2), (0, 3), (0, 4), (1, 2), (1, 3), (1, 4)]⟩
        [false, false, true, true, true] none 0 = .ok (2, [2, 3, 0, 1, -1], 2) ∧
      is_matching ⟨5, [(0, 2), (0, 3), (0, 4), (1, 2), (1, 3), (1, 4)]⟩
        (some [false, false, true, true, true]) [2, 3, 0, 1, -1] = true) ∧
    (igraph_maximum_bipartite_matching ⟨4, [(0, 1), (2, 3)]⟩
        [false, true, false, true] (some [3, 5]) 0 = .ok (2, [1, 0, 3, 2], 8) ∧
      is_matching ⟨4, [(0, 1), (2, 3)]⟩
        (some [false, true, false, true]) [1, 0, 3, 2] = true) :=
  ⟨⟨by decide, by decide⟩, ⟨by decide, by decide⟩, ⟨by decide, by decide⟩⟩

theorem gEvenNeighbor_mtch (i v : Int) :
    ∀ (us : List Int) (st : GState), (gEvenNeighbor i v us st).mtch = st.mtch := by
  intro us
  induction us with
  | nil => intro st; rfl
  | cons u rest ih =>
    intro st
    simp only [gEvenNeighbor]
    split_ifs <;> simp [ih]

theorem gEvenLoop_mtch (g : Graph) (i : Int) :
    ∀ (fuel : Nat) (st : GState), (gEvenLoop g i fuel st).mtch = st.mtch := by
  intro fuel
  induction fuel with
  | zero => intro st; rfl
  | succ f ih =>
    intro st
    simp only [gEvenLoop]
    cases hq : st.levelQ with
    | nil => rfl
    | cons v0 rest => rw [ih, gEvenNeighbor_mtch]

theorem gOddLoop_mtch (g : Graph) (i : Int) :
    ∀ (fuel : Nat) (st : GState), (gOddLoop g i fuel st).mtch = st.mtch := by
  intro fuel
  induction fuel with
  | zero => intro st; rfl
  | succ f ih =>
    intro st
    simp only [gOddLoop]
    cases hq : st.levelQ with
    | nil => rfl
    | cons v0 rest => rw [ih]; split_ifs <;> rfl

theorem gExposeFold_mtch :
    ∀ (l : List Int) (st : GState),
      ((l.foldl (fun s j =>
        if getI s.mtch j = -1 then
          { s with even_level := setI s.even_level j 0,
                   levelQ := s.levelQ ++ [j] }
        else s) st).mtch) = st.mtch := by
  intro l
  induction l with
  | nil => intro st; rfl
  | cons j rest ih =>
    intro st
    rw [List.foldl_cons]
    rw [ih]
    split_ifs <;> rfl

theorem gPhaseStart_mtch (g : Graph) (st : GState) :
    (gPhaseStart g st).mtch = st.mtch := by
  simp only [gPhaseStart]
  rw [gExposeFold_mtch]

theorem gPhaseSteps_mtch (g : Graph) :
    ∀ (fuel : Nat) (st : GState), (gPhaseSteps g fuel st).mtch = st.mtch := by
  intro fuel
  induction fuel with
  | zero => intro st; rfl
  | succ f ih =>
    intro st
    simp only [gPhaseSteps]
    split_ifs <;> simp [ih, gEvenLoop_mtch, gOddLoop_mtch]

/-- The phase search of the general matcher never writes the internal `match`
vector: whatever state it starts from, the vector is returned unchanged.
Together with the all `-1` fill of line 1192 this is why
`igraph_i_maximum_matching_unweighted` computes no matching at all. -/
theorem gSearch_preserves_mtch (g : Graph) :
    ∀ (fuel : Nat) (st : GState), (gSearch g fuel st).mtch = st.mtch := by
  intro fuel
  induction fuel with
  | zero => intro st; rfl
  | succ f ih =>
    intro st
    simp only [gSearch]
    split_ifs with h
    · rw [ih, gPhaseSteps_mtch, gPhaseStart_mtch]
    · rfl
